import Mathlib

/-!
Verification of the spreadsheet computation engine in `spreadsheet_main.py`
(repository Xunzer/pseudoGUISpreadsheet).

The engine lives in `SpreadSheetItem` (lines 41-121) together with the
module-level reference pattern (line 9) and `cell_name` (lines 12-13).
We embed it shallowly:

* a cell (`SpreadSheetItem`) becomes the record `Cell` holding its formula
  text, cached numeric `value`, the dependent set `deps`, the requirement set
  `reqs`, and the `error_shown` flag (lines 42-48);
* the sibling dictionary `self.siblings` becomes a total function
  `Sheet = String → Cell` together with the key list `gridNames`, the keys
  created by `SpreadSheet.create_widgets` for the 10 × 10 grid built in
  `main()` (lines 144-148, 155).  A dictionary access with a key outside
  `gridNames` raises `KeyError` in Python; the embedding returns `none`
  (the whole operation aborts) in that case;
* Python `set` objects are modeled as duplicate-free `List String` values;
  iteration order of a Python set is unspecified, the model fixes the order
  in which elements were produced;
* `calculate` (lines 64-101) becomes `calculate`, `propagate`
  (lines 112-115) becomes `propAux`/`propagate` with an explicit fuel
  argument bounding the recursion depth of the Python call stack: the Python
  recursion terminates exactly when some finite fuel suffices, and an
  execution that exhausts every fuel is the unbounded recursion
  (`RecursionError`);
* an external edit (delegate commit followed by the display-role query,
  lines 37-38 and 118-121) becomes `applyEdit`: store the text, `calculate`
  the cell, then `propagate` from it.
-/

/-- A `SpreadSheetItem` (lines 42-48 of `spreadsheet_main.py`): `formula` is
the stored display-role text (initially `None`, hence `Option`), `value`
starts at 0, `deps` and `reqs` start empty, `error_shown` starts false. -/
structure Cell where
  formula : Option String
  value : Int
  deps : List String
  reqs : List String
  error_shown : Bool
deriving DecidableEq

/-- The sibling dictionary, as a total function from cell names. -/
def Sheet : Type := String → Cell

/-- A freshly constructed cell (lines 42-48). -/
def initCell : Cell := ⟨none, 0, [], [], false⟩

/-- The grid right after `SpreadSheet.create_widgets`: every cell fresh. -/
def sheet0 : Sheet := fun _ => initCell

/-- Point update of one cell of the sheet. -/
def updateCell (g : Sheet) (n : String) (f : Cell → Cell) : Sheet :=
  fun m => if m = n then f (g n) else g m

/-- `f'\x7bchr(ord("A")+j)\x7d\x7bi+1\x7d'` (lines 12-13): column letter
followed by the 1-based row number. -/
def cell_name (i j : Nat) : String :=
  String.mk [Char.ofNat ('A'.toNat + j)] ++ toString (i + 1)

/-- The keys of `self.cells` for the `SpreadSheet(10, 10)` grid built by
`main()` (lines 144-148, 155). -/
def gridNames : List String :=
  (List.range 10).flatMap (fun i => (List.range 10).map (fun j => cell_name i j))

/-- `formula.upper()` (line 72) on the ASCII formulas involved here:
upper-case every character. -/
def pyUpper (s : String) : String := String.mk (s.data.map Char.toUpper)

/-- Python `set` construction from a list: drop duplicates. -/
def pySet : List String → List String
  | [] => []
  | a :: t => if a ∈ pySet t then pySet t else a :: pySet t

/-- Python `set.add`. -/
def setAdd (l : List String) (a : String) : List String :=
  if a ∈ l then l else l ++ [a]

/-! ## Reference extraction

Line 9: `cell_references = re.compile(r'\b[A-Z][0-9]\b')` and line 74:
`current_reqs = set(cell_references.findall(formula))`.  The pattern is two
characters long, an uppercase letter followed by one digit, guarded by word
boundaries; `\w` is `[A-Za-z0-9_]` on the ASCII formulas involved here. -/

/-- A regex word character (`\w`), restricted to ASCII alphanumerics. -/
def isWordChar (c : Char) : Bool := c.isAlphanum || c = '_'

/-- Word boundary on the left: start of string or a non-word character. -/
def boundaryBefore : Option Char → Bool
  | none => true
  | some c => !isWordChar c

/-- Word boundary on the right: end of string or a non-word character. -/
def boundaryAfterL : List Char → Bool
  | [] => true
  | c :: _ => !isWordChar c

/-- Scan for matches of `\b[A-Z][0-9]\b`: a match at a position requires the
previous character (if any) to be a non-word character, an uppercase letter,
a digit, and a non-word character (or the end) after.  Because the second
matched character is a digit, no two matches can overlap, so scanning every
position agrees with `findall`'s non-overlapping scan. -/
def refsAux : Option Char → List Char → List String
  | _, [] => []
  | prev, c :: rest =>
    match rest with
    | [] => []
    | d :: rest2 =>
      (if boundaryBefore prev && c.isUpper && d.isDigit && boundaryAfterL rest2
       then [String.mk [c, d]] else []) ++ refsAux (some c) (d :: rest2)

/-- `cell_references.findall` (line 9 together with line 74), in match order. -/
def refs (s : String) : List String := refsAux none s.data

/-! ## Expression evaluation

Line 92 evaluates the upper-cased formula with Python's `eval`, with empty
globals and the `ChainMap(math.__dict__, req_values)` environment as locals.
Because the formula has been upper-cased (line 72) and every key of
`math.__dict__` contains a lowercase letter, the only resolvable identifiers
are the upper-case cell names bound in `req_values`.  The model below covers
the arithmetic fragment those formulas use: integer literals, identifiers
looked up in the environment, `+`, `-` (binary and unary), `*`, parentheses
and spaces, with Python's left associativity.  Any other input — including a
leading `=`, which is a Python syntax error for `eval` — is conservatively
mapped to the failure outcome `none`, which stands for the exception caught
on lines 91-100. -/

/-- One token of the arithmetic fragment. -/
inductive Tok where
  | num (n : Nat)
  | ident (s : String)
  | plus
  | minus
  | star
  | lparen
  | rparen
deriving DecidableEq

/-- Read a run of digits into a number. -/
def readNat (acc : Nat) : List Char → Nat × List Char
  | [] => (acc, [])
  | c :: r => if c.isDigit then readNat (acc * 10 + (c.toNat - 48)) r else (acc, c :: r)

/-- Read a run of identifier characters. -/
def readName (acc : List Char) : List Char → List Char × List Char
  | [] => (acc, [])
  | c :: r => if isWordChar c then readName (acc ++ [c]) r else (acc, c :: r)

/-- Tokenizer; `none` is a lexical (syntax) error.  The fuel is an upper
bound on the number of tokens and is decremented once per token; the caller
passes the input length plus one, which always suffices because every token
consumes at least one character. -/
def tokenizeF : Nat → List Char → Option (List Tok)
  | 0, _ => none
  | _ + 1, [] => some []
  | f + 1, c :: rest =>
    if c = ' ' then tokenizeF f rest
    else if c.isDigit then
      match readNat 0 (c :: rest) with
      | (n, r') => (tokenizeF f r').map (Tok.num n :: ·)
    else if c.isAlpha || c = '_' then
      match readName [] (c :: rest) with
      | (id, r') => (tokenizeF f r').map (Tok.ident (String.mk id) :: ·)
    else if c = '+' then (tokenizeF f rest).map (Tok.plus :: ·)
    else if c = '-' then (tokenizeF f rest).map (Tok.minus :: ·)
    else if c = '*' then (tokenizeF f rest).map (Tok.star :: ·)
    else if c = '(' then (tokenizeF f rest).map (Tok.lparen :: ·)
    else if c = ')' then (tokenizeF f rest).map (Tok.rparen :: ·)
    else none

/-- Parser levels: primary, product, sum, and the two left-associative
continuation loops carrying the value accumulated so far. -/
inductive PMode where
  | atom
  | term
  | termLoop
  | expr
  | exprLoop
deriving DecidableEq

/-- Fuel-bounded recursive-descent evaluation of the token stream.  The
`Int` argument is the left operand accumulated by the loop modes (ignored by
the other modes).  `none` is a parse error or an unresolvable identifier
(Python `NameError`). -/
def parseL (env : String → Option Int) :
    Nat → PMode → Int → List Tok → Option (Int × List Tok)
  | 0, _, _, _ => none
  | f + 1, PMode.atom, _, ts =>
    match ts with
    | Tok.num n :: r => some ((n : Int), r)
    | Tok.ident s :: r =>
      match env s with
      | some v => some (v, r)
      | none => none
    | Tok.minus :: r =>
      match parseL env f PMode.atom 0 r with
      | some (v, r') => some (-v, r')
      | none => none
    | Tok.lparen :: r =>
      match parseL env f PMode.expr 0 r with
      | some (v, Tok.rparen :: r') => some (v, r')
      | _ => none
    | _ => none
  | f + 1, PMode.term, _, ts =>
    match parseL env f PMode.atom 0 ts with
    | some (v, r) => parseL env f PMode.termLoop v r
    | none => none
  | f + 1, PMode.termLoop, a, ts =>
    match ts with
    | Tok.star :: r =>
      match parseL env f PMode.atom 0 r with
      | some (v, r') => parseL env f PMode.termLoop (a * v) r'
      | none => none
    | _ => some (a, ts)
  | f + 1, PMode.expr, _, ts =>
    match parseL env f PMode.term 0 ts with
    | some (v, r) => parseL env f PMode.exprLoop v r
    | none => none
  | f + 1, PMode.exprLoop, a, ts =>
    match ts with
    | Tok.plus :: r =>
      match parseL env f PMode.term 0 r with
      | some (v, r') => parseL env f PMode.exprLoop (a + v) r'
      | none => none
    | Tok.minus :: r =>
      match parseL env f PMode.term 0 r with
      | some (v, r') => parseL env f PMode.exprLoop (a - v) r'
      | none => none
    | _ => some (a, ts)

/-- `eval(formula, \x7b\x7d, environment)` of line 92 on the arithmetic
fragment: `some v` is a successful numeric evaluation, `none` is the raised
exception caught on lines 94-100. -/
def pyEval (s : String) (env : String → Option Int) : Option Int :=
  match tokenizeF (s.data.length + 1) s.data with
  | none => none
  | some ts =>
    match parseL env (10 * (ts.length + 1)) PMode.expr 0 ts with
    | some (v, []) => some v
    | _ => none

/-! ## Cell recalculation (`SpreadSheetItem.calculate`, lines 64-101) -/

/-- `current_reqs - self.reqs` of line 79. -/
def addedOf (g : Sheet) (n : String) (f0 : String) : List String :=
  (pySet (refs (pyUpper f0))).filter (fun r => decide (¬ r ∈ (g n).reqs))

/-- `self.reqs - current_reqs` of line 82. -/
def removedOf (g : Sheet) (n : String) (f0 : String) : List String :=
  (g n).reqs.filter (fun r => decide (¬ r ∈ pySet (refs (pyUpper f0))))

/-- Line 80: `self.siblings[r].deps.add(name)` for every new requirement. -/
def applyAdds (g : Sheet) (n : String) (l : List String) : Sheet :=
  l.foldl (fun h r => updateCell h r (fun cr => { cr with deps := setAdd cr.deps n })) g

/-- Line 83: `self.siblings[r].deps.remove(name)` for every dropped
requirement. -/
def applyRemoves (g : Sheet) (n : String) (l : List String) : Sheet :=
  l.foldl
    (fun h r => updateCell h r
      (fun cr => { cr with deps := cr.deps.filter (fun x => decide (¬ x = n)) }))
    g

/-- Line 86: `req_values = \x7br: self.siblings[r].value for r in current_reqs\x7d`. -/
def envOf (g : Sheet) (rs : List String) : String → Option Int :=
  fun r => if r ∈ rs then some ((g r).value) else none

/-- `SpreadSheetItem.calculate` (lines 64-101).  The result is
`some (sheet', reported)` where `reported` records whether
`show_error_message` ran (lines 95-98); `none` models the uncaught
`KeyError` raised by `self.siblings[r]` (lines 80, 83, 86) or by
`deps.remove` (line 83) when a referenced name is not a dictionary key —
the guard below is exactly the condition under which none of those lookups
raises.  On a `KeyError` the Python process aborts, so no resulting state is
modeled.  Steps, matching the source lines:

* lines 67-69: `None` or empty formula sets `value = 0` and returns at once
  (`reqs` and `error_shown` are left as they were);
* line 72: the formula is upper-cased;
* line 74: `current_reqs` is extracted;
* lines 79-83: the dependents of the diffed requirements are updated;
* lines 86-88: the environment of requirement values is built;
* lines 89-100: evaluation; on success the result is stored and the error
  flag cleared (lines 92-93); on failure the old value is kept and the error
  is reported only if `error_shown` was not already set (lines 94-100);
* line 101: `self.reqs = current_reqs`. -/
def calculate (g : Sheet) (n : String) : Option (Sheet × Bool) :=
  match (g n).formula with
  | none => some (updateCell g n (fun c0 => { c0 with value := 0 }), false)
  | some f0 =>
    if f0 = "" then some (updateCell g n (fun c0 => { c0 with value := 0 }), false)
    else
      let current_reqs := pySet (refs (pyUpper f0))
      let removed := removedOf g n f0
      if current_reqs.all (fun r => decide (r ∈ gridNames)) &&
          removed.all (fun r => decide (r ∈ gridNames) && decide (n ∈ (g r).deps)) then
        let g2 := applyRemoves (applyAdds g n (addedOf g n f0)) n removed
        match pyEval (pyUpper f0) (envOf g2 current_reqs) with
        | some v =>
          some (updateCell g2 n
            (fun c0 => { c0 with value := v, error_shown := false, reqs := current_reqs }),
            false)
        | none =>
          some (updateCell g2 n
            (fun c0 => { c0 with error_shown := true, reqs := current_reqs }),
            !(g n).error_shown)
      else none

/-! ## Propagation (`SpreadSheetItem.propagate`, lines 112-115) -/

/-- `propagate`'s loop body over a list of dependents: each dependent is
recalculated and then propagates recursively (lines 113-115).  The fuel
bounds the recursion depth; `none` means the fuel was exhausted (in Python:
the recursion exceeds any stack bound) or a nested `calculate` raised.  The
returned list records, in order, every cell on which `calculate` was
invoked during the pass. -/
def propAux : Nat → Sheet → List String → Option (Sheet × List String)
  | 0, _, _ => none
  | _ + 1, g, [] => some (g, [])
  | f + 1, g, d :: ds =>
    match calculate g d with
    | none => none
    | some (g1, _) =>
      match propAux f g1 ((g1 d).deps) with
      | none => none
      | some (g2, l2) =>
        match propAux f g2 ds with
        | none => none
        | some (g3, l3) => some (g3, d :: (l2 ++ l3))

/-- `self.propagate()` (lines 112-115): walk `self.deps`. -/
def propagate (fuel : Nat) (g : Sheet) (n : String) : Option (Sheet × List String) :=
  propAux fuel g ((g n).deps)

/-- Committing new text into a cell (delegate `setModelData`, line 38). -/
def setFormula (g : Sheet) (n : String) (t : String) : Sheet :=
  updateCell g n (fun c0 => { c0 with formula := some t })

/-- One external edit of cell `n` to text `t`: the commit stores the text
and the subsequent display-role query runs `self.calculate()` then
`self.propagate()` (lines 118-121).  Only existing grid cells can be
edited.  `none` models an aborted run: an uncaught `KeyError` or unbounded
propagation. -/
def applyEdit (fuel : Nat) (g : Sheet) (n t : String) : Option Sheet :=
  if n ∈ gridNames then
    match calculate (setFormula g n t) n with
    | none => none
    | some (g1, _) =>
      match propagate fuel g1 n with
      | none => none
      | some (g2, _) => some g2
  else none

/-- A sequence of edits applied from a given sheet. -/
def runEditsFrom (fuel : Nat) : Sheet → List (String × String) → Option Sheet
  | g, [] => some g
  | g, (n, t) :: rest =>
    match applyEdit fuel g n t with
    | none => none
    | some g' => runEditsFrom fuel g' rest

/-- A sequence of edits applied to the fresh grid. -/
def runEdits (fuel : Nat) (edits : List (String × String)) : Option Sheet :=
  runEditsFrom fuel sheet0 edits

/-! ## Basic lemmas about the set and sheet primitives -/

theorem updateCell_same (g : Sheet) (n : String) (f : Cell → Cell) :
    updateCell g n f n = f (g n) := by
  simp [updateCell]

theorem updateCell_other (g : Sheet) (n m : String) (f : Cell → Cell) (h : ¬ m = n) :
    updateCell g n f m = g m := by
  simp [updateCell, h]

theorem mem_setAdd (l : List String) (a x : String) :
    x ∈ setAdd l a ↔ x ∈ l ∨ x = a := by
  unfold setAdd
  by_cases h : a ∈ l
  · simp only [if_pos h]
    constructor
    · exact Or.inl
    · rintro (hx | rfl) <;> [exact hx; exact h]
  · simp [if_neg h]

theorem setAdd_idem (l : List String) (a : String) :
    setAdd (setAdd l a) a = setAdd l a := by
  unfold setAdd
  by_cases h : a ∈ l
  · simp [if_pos h]
  · simp [if_neg h]

theorem filter_idem {α : Type} (p : α → Bool) (l : List α) :
    (l.filter p).filter p = l.filter p := by
  induction l with
  | nil => rfl
  | cons a t ih =>
    by_cases h : p a = true
    · simp [List.filter_cons, h, ih]
    · simp [List.filter_cons, h, ih]

theorem mem_pySet (l : List String) (x : String) : x ∈ pySet l ↔ x ∈ l := by
  induction l with
  | nil => simp [pySet]
  | cons a t ih =>
    unfold pySet
    by_cases h : a ∈ pySet t
    · rw [if_pos h, ih]
      constructor
      · exact fun hx => List.mem_cons_of_mem a hx
      · intro hx
        rcases List.mem_cons.mp hx with rfl | hx2
        · exact ih.mp h
        · exact hx2
    · rw [if_neg h]
      simp only [List.mem_cons, ih]

/-! ## Pointwise description of the dependent-set updates (lines 79-83) -/

theorem applyAdds_apply (n : String) :
    ∀ (l : List String) (g : Sheet) (r : String),
      applyAdds g n l r =
        if r ∈ l then { g r with deps := setAdd (g r).deps n } else g r := by
  intro l
  induction l with
  | nil => intro g r; simp [applyAdds]
  | cons a t ih =>
    intro g r
    show applyAdds (updateCell g a fun cr => { cr with deps := setAdd cr.deps n }) n t r = _
    rw [ih]
    by_cases hr : r = a
    · subst hr
      rw [updateCell_same]
      by_cases ht : r ∈ t
      · simp [ht, setAdd_idem]
      · simp [ht]
    · rw [updateCell_other _ _ _ _ hr]
      by_cases ht : r ∈ t
      · simp [ht, hr]
      · simp [ht, hr]

theorem applyRemoves_apply (n : String) :
    ∀ (l : List String) (g : Sheet) (r : String),
      applyRemoves g n l r =
        if r ∈ l then
          { g r with deps := (g r).deps.filter (fun x => decide (¬ x = n)) }
        else g r := by
  intro l
  induction l with
  | nil => intro g r; simp [applyRemoves]
  | cons a t ih =>
    intro g r
    show applyRemoves
        (updateCell g a fun cr => { cr with deps := cr.deps.filter (fun x => decide (¬ x = n)) })
        n t r = _
    rw [ih]
    by_cases hr : r = a
    · subst hr
      rw [updateCell_same]
      by_cases ht : r ∈ t
      · simp [ht, filter_idem]
      · simp [ht]
    · rw [updateCell_other _ _ _ _ hr]
      by_cases ht : r ∈ t
      · simp [ht, hr]
      · simp [ht, hr]

/-! ## Membership description of the requirement diffs -/

theorem mem_addedOf (g : Sheet) (n f0 : String) (x : String) :
    x ∈ addedOf g n f0 ↔ x ∈ pySet (refs (pyUpper f0)) ∧ ¬ x ∈ (g n).reqs := by
  simp [addedOf, List.mem_filter]

theorem mem_removedOf (g : Sheet) (n f0 : String) (x : String) :
    x ∈ removedOf g n f0 ↔ x ∈ (g n).reqs ∧ ¬ x ∈ pySet (refs (pyUpper f0)) := by
  simp [removedOf, List.mem_filter]

/-! ## Field projections through the graph updates -/

theorem applyAdds_reqs (g : Sheet) (n : String) (l : List String) (r : String) :
    (applyAdds g n l r).reqs = (g r).reqs := by
  rw [applyAdds_apply]
  split <;> rfl

theorem applyAdds_value (g : Sheet) (n : String) (l : List String) (r : String) :
    (applyAdds g n l r).value = (g r).value := by
  rw [applyAdds_apply]
  split <;> rfl

theorem applyAdds_formula (g : Sheet) (n : String) (l : List String) (r : String) :
    (applyAdds g n l r).formula = (g r).formula := by
  rw [applyAdds_apply]
  split <;> rfl

theorem applyAdds_error (g : Sheet) (n : String) (l : List String) (r : String) :
    (applyAdds g n l r).error_shown = (g r).error_shown := by
  rw [applyAdds_apply]
  split <;> rfl

theorem applyRemoves_reqs (g : Sheet) (n : String) (l : List String) (r : String) :
    (applyRemoves g n l r).reqs = (g r).reqs := by
  rw [applyRemoves_apply]
  split <;> rfl

theorem applyRemoves_value (g : Sheet) (n : String) (l : List String) (r : String) :
    (applyRemoves g n l r).value = (g r).value := by
  rw [applyRemoves_apply]
  split <;> rfl

theorem applyRemoves_formula (g : Sheet) (n : String) (l : List String) (r : String) :
    (applyRemoves g n l r).formula = (g r).formula := by
  rw [applyRemoves_apply]
  split <;> rfl

theorem applyRemoves_error (g : Sheet) (n : String) (l : List String) (r : String) :
    (applyRemoves g n l r).error_shown = (g r).error_shown := by
  rw [applyRemoves_apply]
  split <;> rfl

/-- The combined effect of lines 79-83 on a dependent set: `n` is inserted
into the dependents of newly referenced cells, removed from the dependents
of cells no longer referenced, and every other dependent set is untouched. -/
theorem graphUpdate_deps (g : Sheet) (n f0 : String) (Y : String) :
    (applyRemoves (applyAdds g n (addedOf g n f0)) n (removedOf g n f0) Y).deps =
      if Y ∈ addedOf g n f0 then setAdd ((g Y).deps) n
      else if Y ∈ removedOf g n f0 then
        ((g Y).deps).filter (fun x => decide (¬ x = n))
      else (g Y).deps := by
  rw [applyRemoves_apply, applyAdds_apply]
  by_cases hR : Y ∈ removedOf g n f0
  · have hA : ¬ Y ∈ addedOf g n f0 := by
      intro hA
      exact ((mem_addedOf g n f0 Y).mp hA).2 ((mem_removedOf g n f0 Y).mp hR).1
    rw [if_pos hR, if_neg hA, if_neg hA, if_pos hR]
  · rw [if_neg hR]
    by_cases hA : Y ∈ addedOf g n f0
    · rw [if_pos hA, if_pos hA]
    · rw [if_neg hA, if_neg hA, if_neg hR]

/-- What one completed `calculate` call does to the relation sets.  Either
the early-return branch for a missing or empty formula ran (lines 67-69):
`reqs` of the recalculated cell and every dependent set are unchanged; or
the formula `f0` is present and non-empty, `reqs` of the recalculated cell
becomes the extracted reference set (lines 74, 101), and the dependent sets
change exactly as lines 79-83 prescribe.  In both branches the `reqs` of
every other cell are untouched. -/
theorem calculate_spec (g : Sheet) (n : String) (g' : Sheet) (b : Bool)
    (hc : calculate g n = some (g', b)) :
    (∀ X, ¬ X = n → (g' X).reqs = (g X).reqs) ∧
    (∀ X, (g' X).formula = (g X).formula) ∧
    (((g' n).reqs = (g n).reqs ∧ ∀ Y, (g' Y).deps = (g Y).deps) ∨
      (∃ f0, (g n).formula = some f0 ∧ ¬ f0 = "" ∧
        (g' n).reqs = pySet (refs (pyUpper f0)) ∧
        (∀ Y, (g' Y).deps =
          if Y ∈ addedOf g n f0 then setAdd ((g Y).deps) n
          else if Y ∈ removedOf g n f0 then
            ((g Y).deps).filter (fun x => decide (¬ x = n))
          else (g Y).deps))) := by
  rcases hF : (g n).formula with _ | f0
  · simp only [calculate, hF] at hc
    simp only [Option.some.injEq, Prod.mk.injEq] at hc
    obtain ⟨rfl, rfl⟩ := hc
    refine ⟨?_, ?_, Or.inl ⟨?_, ?_⟩⟩
    · intro X hX
      rw [updateCell_other _ _ _ _ hX]
    · intro X
      by_cases hX : X = n
      · subst hX; rw [updateCell_same]
      · rw [updateCell_other _ _ _ _ hX]
    · rw [updateCell_same]
    · intro Y
      by_cases hY : Y = n
      · subst hY; rw [updateCell_same]
      · rw [updateCell_other _ _ _ _ hY]
  · by_cases hne : f0 = ""
    · subst hne
      simp only [calculate, hF] at hc
      rw [if_pos trivial] at hc
      simp only [Option.some.injEq, Prod.mk.injEq] at hc
      obtain ⟨rfl, rfl⟩ := hc
      refine ⟨?_, ?_, Or.inl ⟨?_, ?_⟩⟩
      · intro X hX
        rw [updateCell_other _ _ _ _ hX]
      · intro X
        by_cases hX : X = n
        · subst hX; rw [updateCell_same]
        · rw [updateCell_other _ _ _ _ hX]
      · rw [updateCell_same]
      · intro Y
        by_cases hY : Y = n
        · subst hY; rw [updateCell_same]
        · rw [updateCell_other _ _ _ _ hY]
    · simp only [calculate, hF, if_neg hne] at hc
      split at hc
      · split at hc
        · simp only [Option.some.injEq, Prod.mk.injEq] at hc
          obtain ⟨rfl, rfl⟩ := hc
          refine ⟨?_, ?_, Or.inr ⟨f0, rfl, hne, ?_, ?_⟩⟩
          · intro X hX
            rw [updateCell_other _ _ _ _ hX, applyRemoves_reqs, applyAdds_reqs]
          · intro X
            by_cases hX : X = n
            · rw [hX, updateCell_same]
              show (applyRemoves (applyAdds g n _) n _ n).formula = _
              rw [applyRemoves_formula, applyAdds_formula]
            · rw [updateCell_other _ _ _ _ hX, applyRemoves_formula, applyAdds_formula]
          · rw [updateCell_same]
          · intro Y
            by_cases hY : Y = n
            · rw [hY, updateCell_same]
              show (applyRemoves (applyAdds g n _) n _ n).deps = _
              rw [graphUpdate_deps]
            · rw [updateCell_other _ _ _ _ hY, graphUpdate_deps]
        · simp only [Option.some.injEq, Prod.mk.injEq] at hc
          obtain ⟨rfl, rfl⟩ := hc
          refine ⟨?_, ?_, Or.inr ⟨f0, rfl, hne, ?_, ?_⟩⟩
          · intro X hX
            rw [updateCell_other _ _ _ _ hX, applyRemoves_reqs, applyAdds_reqs]
          · intro X
            by_cases hX : X = n
            · rw [hX, updateCell_same]
              show (applyRemoves (applyAdds g n _) n _ n).formula = _
              rw [applyRemoves_formula, applyAdds_formula]
            · rw [updateCell_other _ _ _ _ hX, applyRemoves_formula, applyAdds_formula]
          · rw [updateCell_same]
          · intro Y
            by_cases hY : Y = n
            · rw [hY, updateCell_same]
              show (applyRemoves (applyAdds g n _) n _ n).deps = _
              rw [graphUpdate_deps]
            · rw [updateCell_other _ _ _ _ hY, graphUpdate_deps]
      · exact absurd hc (by simp)

/-- The graph updates of lines 79-83 touch only `deps` fields, so the
environment of requirement values (line 86) built after them reads the same
values as the sheet before them. -/
theorem envOf_graphUpdate (g : Sheet) (n f0 : String) (rs : List String) :
    envOf (applyRemoves (applyAdds g n (addedOf g n f0)) n (removedOf g n f0)) rs =
      envOf g rs := by
  funext r
  unfold envOf
  rw [applyRemoves_value, applyAdds_value]

/-- What one completed `calculate` call does to the value and error state of
the recalculated cell, for a present, non-empty formula (lines 89-100): on
successful evaluation the result is stored and the error flag cleared; on
failure the value is untouched, the flag ends up set, and the error dialog
ran exactly when the flag was not already set. -/
theorem calculate_eval_spec (g : Sheet) (n f0 : String)
    (hf : (g n).formula = some f0) (hne : ¬ f0 = "")
    (g' : Sheet) (b : Bool) (hc : calculate g n = some (g', b)) :
    (∃ v, pyEval (pyUpper f0) (envOf g (pySet (refs (pyUpper f0)))) = some v ∧
        (g' n).value = v ∧ (g' n).error_shown = false ∧ b = false) ∨
    (pyEval (pyUpper f0) (envOf g (pySet (refs (pyUpper f0)))) = none ∧
        (g' n).value = (g n).value ∧ (g' n).error_shown = true ∧
        b = !(g n).error_shown) := by
  simp only [calculate, hf, if_neg hne] at hc
  rw [envOf_graphUpdate] at hc
  split at hc
  · rcases hev : pyEval (pyUpper f0) (envOf g (pySet (refs (pyUpper f0)))) with _ | v
    · rw [hev] at hc
      simp only [Option.some.injEq, Prod.mk.injEq] at hc
      obtain ⟨rfl, rfl⟩ := hc
      refine Or.inr ⟨rfl, ?_, ?_, rfl⟩
      · rw [updateCell_same]
        show (applyRemoves (applyAdds g n _) n _ n).value = _
        rw [applyRemoves_value, applyAdds_value]
      · rw [updateCell_same]
    · rw [hev] at hc
      simp only [Option.some.injEq, Prod.mk.injEq] at hc
      obtain ⟨rfl, rfl⟩ := hc
      refine Or.inl ⟨v, rfl, ?_, ?_, rfl⟩
      · rw [updateCell_same]
      · rw [updateCell_same]
  · exact absurd hc (by simp)

/-! ## The mutual-inverse invariant of the relation sets -/

/-- Section 3 of the specification: for any cells X, Y the requirement and
dependent sets are mutually inverse. -/
def RelInv (g : Sheet) : Prop :=
  ∀ X Y : String, Y ∈ (g X).reqs ↔ X ∈ (g Y).deps

/-- A sheet predicate preserved by every completed `calculate` call. -/
def CalcPreserves (P : Sheet → Prop) : Prop :=
  ∀ g n g' b, P g → calculate g n = some (g', b) → P g'

theorem RelInv_sheet0 : RelInv sheet0 := by
  intro X Y
  simp [sheet0, initCell]

theorem calc_preserves_RelInv : CalcPreserves RelInv := by
  intro g n g' b hInv hc
  obtain ⟨hother, _, hrest⟩ := calculate_spec g n g' b hc
  rcases hrest with ⟨hreqn, hdeps⟩ | ⟨f0, hF, hne, hreqn, hdeps⟩
  · intro X Y
    by_cases hX : X = n
    · rw [hX, hreqn, hdeps Y]
      exact hInv n Y
    · rw [hother X hX, hdeps Y]
      exact hInv X Y
  · intro X Y
    by_cases hX : X = n
    · rw [hX, hreqn, hdeps Y]
      by_cases hYA : Y ∈ addedOf g n f0
      · rw [if_pos hYA]
        have h1 : Y ∈ pySet (refs (pyUpper f0)) := ((mem_addedOf g n f0 Y).mp hYA).1
        have h2 : n ∈ setAdd ((g Y).deps) n := (mem_setAdd _ _ _).mpr (Or.inr rfl)
        exact iff_of_true h1 h2
      · rw [if_neg hYA]
        by_cases hYR : Y ∈ removedOf g n f0
        · rw [if_pos hYR]
          have h1 : ¬ Y ∈ pySet (refs (pyUpper f0)) := ((mem_removedOf g n f0 Y).mp hYR).2
          have h2 : ¬ n ∈ ((g Y).deps).filter (fun x => decide (¬ x = n)) := by
            intro hmem
            have := List.of_mem_filter hmem
            simp at this
          exact iff_of_false h1 h2
        · rw [if_neg hYR]
          constructor
          · intro hYreq
            by_cases hold : Y ∈ (g n).reqs
            · exact (hInv n Y).mp hold
            · exact absurd ((mem_addedOf g n f0 Y).mpr ⟨hYreq, hold⟩) hYA
          · intro hdep
            have hold : Y ∈ (g n).reqs := (hInv n Y).mpr hdep
            by_cases hnew : Y ∈ pySet (refs (pyUpper f0))
            · exact hnew
            · exact absurd ((mem_removedOf g n f0 Y).mpr ⟨hold, hnew⟩) hYR
    · rw [hother X hX, hdeps Y]
      by_cases hYA : Y ∈ addedOf g n f0
      · rw [if_pos hYA, mem_setAdd]
        constructor
        · intro h
          exact Or.inl ((hInv X Y).mp h)
        · rintro (h | h)
          · exact (hInv X Y).mpr h
          · exact absurd h hX
      · rw [if_neg hYA]
        by_cases hYR : Y ∈ removedOf g n f0
        · rw [if_pos hYR]
          rw [List.mem_filter]
          constructor
          · intro h
            exact ⟨(hInv X Y).mp h, by simpa using hX⟩
          · intro h
            exact (hInv X Y).mpr h.1
        · rw [if_neg hYR]
          exact hInv X Y

theorem setFormula_reqs (g : Sheet) (n t : String) (X : String) :
    (setFormula g n t X).reqs = (g X).reqs := by
  unfold setFormula
  by_cases hX : X = n
  · rw [hX, updateCell_same]
  · rw [updateCell_other _ _ _ _ hX]

theorem setFormula_deps (g : Sheet) (n t : String) (X : String) :
    (setFormula g n t X).deps = (g X).deps := by
  unfold setFormula
  by_cases hX : X = n
  · rw [hX, updateCell_same]
  · rw [updateCell_other _ _ _ _ hX]

/-- Any predicate that only inspects `reqs` and `deps` and is preserved by
`calculate` is preserved by the propagation loop. -/
theorem propAux_preserves {P : Sheet → Prop} (hP : CalcPreserves P) :
    ∀ (f : Nat) (l : List String) (g g' : Sheet) (cs : List String),
      propAux f g l = some (g', cs) → P g → P g' := by
  intro f
  induction f with
  | zero =>
    intro l g g' cs h
    exact absurd h (by simp [propAux])
  | succ f ih =>
    intro l g g' cs h hp
    cases l with
    | nil =>
      simp only [propAux, Option.some.injEq, Prod.mk.injEq] at h
      rw [← h.1]
      exact hp
    | cons d ds =>
      simp only [propAux] at h
      rcases h1 : calculate g d with _ | ⟨g1, b1⟩
      · rw [h1] at h
        exact absurd h (by simp)
      · rw [h1] at h
        dsimp only at h
        rcases h2 : propAux f g1 ((g1 d).deps) with _ | ⟨g2, l2⟩
        · rw [h2] at h
          exact absurd h (by simp)
        · rw [h2] at h
          dsimp only at h
          rcases h3 : propAux f g2 ds with _ | ⟨g3, l3⟩
          · rw [h3] at h
            exact absurd h (by simp)
          · rw [h3] at h
            dsimp only at h
            simp only [Option.some.injEq, Prod.mk.injEq] at h
            rw [← h.1]
            exact ih ds g2 g3 l3 h3 (ih ((g1 d).deps) g1 g2 l2 h2 (hP g d g1 b1 hp h1))

theorem applyEdit_preserves {P : Sheet → Prop} (hP : CalcPreserves P)
    (hset : ∀ g n t, P g → P (setFormula g n t)) :
    ∀ (f : Nat) (g : Sheet) (n t : String) (g' : Sheet),
      applyEdit f g n t = some g' → P g → P g' := by
  intro f g n t g' h hp
  unfold applyEdit at h
  split at h
  · rcases h1 : calculate (setFormula g n t) n with _ | ⟨g1, b1⟩
    · rw [h1] at h
      exact absurd h (by simp)
    · rw [h1] at h
      dsimp only at h
      rcases h2 : propagate f g1 n with _ | ⟨g2, l2⟩
      · rw [h2] at h
        exact absurd h (by simp)
      · rw [h2] at h
        dsimp only at h
        simp only [Option.some.injEq] at h
        rw [← h]
        exact propAux_preserves hP f _ g1 g2 l2 h2
          (hP (setFormula g n t) n g1 b1 (hset g n t hp) h1)
  · exact absurd h (by simp)

theorem runEditsFrom_preserves {P : Sheet → Prop} (hP : CalcPreserves P)
    (hset : ∀ g n t, P g → P (setFormula g n t)) :
    ∀ (edits : List (String × String)) (f : Nat) (g g' : Sheet),
      runEditsFrom f g edits = some g' → P g → P g' := by
  intro edits
  induction edits with
  | nil =>
    intro f g g' h hp
    simp only [runEditsFrom, Option.some.injEq] at h
    rw [← h]
    exact hp
  | cons e rest ih =>
    intro f g g' h hp
    simp only [runEditsFrom] at h
    rcases h1 : applyEdit f g e.1 e.2 with _ | g1
    · rw [h1] at h
      exact absurd h (by simp)
    · rw [h1] at h
      exact ih f g1 g' h (applyEdit_preserves hP hset f g e.1 e.2 g1 h1 hp)

theorem runEdits_preserves {P : Sheet → Prop} (hP : CalcPreserves P)
    (hset : ∀ g n t, P g → P (setFormula g n t)) (h0 : P sheet0)
    (f : Nat) (edits : List (String × String)) (g' : Sheet)
    (h : runEdits f edits = some g') : P g' :=
  runEditsFrom_preserves hP hset edits f sheet0 g' h h0

theorem setFormula_preserves_RelInv (g : Sheet) (n t : String) (h : RelInv g) :
    RelInv (setFormula g n t) := by
  intro X Y
  rw [setFormula_reqs, setFormula_deps]
  exact h X Y

/-! ## Shape of extracted references and the row-10 names -/

/-- Every string produced by the reference scan is exactly two characters
long: the pattern `[A-Z][0-9]` has no quantifier. -/
theorem refsAux_length : ∀ (prev : Option Char) (l : List Char) (r : String),
    r ∈ refsAux prev l → r.data.length = 2 := by
  intro prev l
  induction l generalizing prev with
  | nil =>
    intro r h
    simp [refsAux] at h
  | cons c rest ih =>
    intro r h
    cases rest with
    | nil => simp [refsAux] at h
    | cons d rest2 =>
      simp only [refsAux, List.mem_append] at h
      rcases h with h | h
      · split at h
        · simp only [List.mem_singleton] at h
          rw [h]
          rfl
        · simp at h
      · exact ih (some c) r h

/-- A cell of the tenth row has a three-character name: one letter and the
two digits of `10`. -/
theorem cell_name_row10_length (j : Nat) : (cell_name 9 j).data.length = 3 := rfl

/-- The reference pattern can never produce the name of a row-10 cell. -/
theorem cell_name_row10_not_ref (j : Nat) (f : String) : ¬ cell_name 9 j ∈ refs f := by
  intro h
  have h2 := refsAux_length none f.data (cell_name 9 j) h
  rw [cell_name_row10_length] at h2
  exact absurd h2 (by decide)

/-- Invariant for claim C10: every stored requirement is a two-character
name, and any cell whose own name is not two characters long has an empty
dependent set. -/
def RefShape (g : Sheet) : Prop :=
  (∀ X r, r ∈ (g X).reqs → r.data.length = 2) ∧
  (∀ X : String, ¬ X.data.length = 2 → (g X).deps = [])

theorem RefShape_sheet0 : RefShape sheet0 := by
  constructor
  · intro X r hr
    simp [sheet0, initCell] at hr
  · intro X _
    rfl

theorem calc_preserves_RefShape : CalcPreserves RefShape := by
  intro g n g' b hP hc
  obtain ⟨hreq2, hdeps2⟩ := hP
  obtain ⟨hother, _, hrest⟩ := calculate_spec g n g' b hc
  rcases hrest with ⟨hreqn, hdeps⟩ | ⟨f0, hF, hne, hreqn, hdeps⟩
  · constructor
    · intro X r hr
      by_cases hX : X = n
      · rw [hX, hreqn] at hr
        exact hreq2 n r hr
      · rw [hother X hX] at hr
        exact hreq2 X r hr
    · intro X hX
      rw [hdeps X]
      exact hdeps2 X hX
  · constructor
    · intro X r hr
      by_cases hX : X = n
      · rw [hX, hreqn] at hr
        exact refsAux_length none (pyUpper f0).data r ((mem_pySet _ r).mp hr)
      · rw [hother X hX] at hr
        exact hreq2 X r hr
    · intro X hX
      rw [hdeps X]
      have hA : ¬ X ∈ addedOf g n f0 := by
        intro hA
        exact hX (refsAux_length none (pyUpper f0).data X
          ((mem_pySet _ X).mp ((mem_addedOf g n f0 X).mp hA).1))
      have hR : ¬ X ∈ removedOf g n f0 := by
        intro hR
        exact hX (hreq2 n X ((mem_removedOf g n f0 X).mp hR).1)
      rw [if_neg hA, if_neg hR]
      exact hdeps2 X hX

theorem setFormula_preserves_RefShape (g : Sheet) (n t : String) (h : RefShape g) :
    RefShape (setFormula g n t) := by
  constructor
  · intro X r hr
    rw [setFormula_reqs] at hr
    exact h.1 X r hr
  · intro X hX
    rw [setFormula_deps]
    exact h.2 X hX

/-! ## The two-cell cycle -/

/-- When the current reference set of a cell's formula coincides with its
stored `reqs` and lies inside the grid, `calculate` completes and leaves
every `formula`, `reqs` and `deps` field of the whole sheet unchanged: the
diff of lines 79-83 is empty, so only the value and error state of the
recalculated cell can move. -/
theorem calculate_stable (g : Sheet) (n f0 : String)
    (hf : (g n).formula = some f0) (hne : ¬ f0 = "")
    (hreqs : (g n).reqs = pySet (refs (pyUpper f0)))
    (hgrid : (pySet (refs (pyUpper f0))).all (fun r => decide (r ∈ gridNames)) = true) :
    ∃ g' b, calculate g n = some (g', b) ∧
      (∀ X, (g' X).formula = (g X).formula) ∧
      (∀ X, (g' X).reqs = (g X).reqs) ∧
      (∀ X, (g' X).deps = (g X).deps) := by
  have hadd : addedOf g n f0 = [] := by
    unfold addedOf
    rw [List.filter_eq_nil_iff]
    intro a ha
    rw [← hreqs] at ha
    simp [ha]
  have hrem : removedOf g n f0 = [] := by
    unfold removedOf
    rw [List.filter_eq_nil_iff]
    intro a ha
    rw [hreqs] at ha
    simp [ha]
  have hsome : (calculate g n).isSome = true := by
    simp only [calculate, hf, if_neg hne, hrem, List.all_nil, Bool.and_true, hgrid, if_true]
    split <;> rfl
  rcases hcx : calculate g n with _ | p
  · rw [hcx] at hsome
    exact absurd hsome (by simp)
  · obtain ⟨g', b⟩ := p
    obtain ⟨hother, hform, hrest⟩ := calculate_spec g n g' b hcx
    refine ⟨g', b, rfl, hform, ?_, ?_⟩
    · intro X
      rcases hrest with ⟨hreqn, _⟩ | ⟨f0', hF', _, hreqn, _⟩
      · by_cases hX : X = n
        · rw [hX, hreqn]
        · exact hother X hX
      · have hff : f0' = f0 := by
          rw [hf] at hF'
          exact ((Option.some.injEq _ _).mp hF'.symm)
        subst hff
        by_cases hX : X = n
        · rw [hX, hreqn, hreqs]
        · exact hother X hX
    · intro X
      rcases hrest with ⟨_, hdeps⟩ | ⟨f0', hF', _, _, hdeps⟩
      · exact hdeps X
      · have hff : f0' = f0 := by
          rw [hf] at hF'
          exact ((Option.some.injEq _ _).mp hF'.symm)
        subst hff
        rw [hdeps X, if_neg (by rw [hadd]; simp), if_neg (by rw [hrem]; simp)]

/-- The direct two-cell cycle of the spec's section 8: `A1` holds `"=B1"`,
`B1` holds `"=A1"`, the stored requirement sets match the formulas, and the
dependency edges point both ways. -/
def CycState (g : Sheet) : Prop :=
  (g "A1").formula = some "=B1" ∧ (g "A1").reqs = ["B1"] ∧ (g "A1").deps = ["B1"] ∧
  (g "B1").formula = some "=A1" ∧ (g "B1").reqs = ["A1"] ∧ (g "B1").deps = ["A1"]

/-- Recalculating either cell of the cycle completes and keeps the cycle. -/
theorem cyc_calc (g : Sheet) (hg : CycState g) :
    (∃ g' b, calculate g "A1" = some (g', b) ∧ CycState g') ∧
    (∃ g' b, calculate g "B1" = some (g', b) ∧ CycState g') := by
  obtain ⟨haf, har, had, hbf, hbr, hbd⟩ := hg
  constructor
  · obtain ⟨g', b, hc, hform, hreq, hdep⟩ :=
      calculate_stable g "A1" "=B1" haf (by decide) (by rw [har]; decide) (by decide)
    refine ⟨g', b, hc, ?_, ?_, ?_, ?_, ?_, ?_⟩
    · rw [hform]; exact haf
    · rw [hreq]; exact har
    · rw [hdep]; exact had
    · rw [hform]; exact hbf
    · rw [hreq]; exact hbr
    · rw [hdep]; exact hbd
  · obtain ⟨g', b, hc, hform, hreq, hdep⟩ :=
      calculate_stable g "B1" "=A1" hbf (by decide) (by rw [hbr]; decide) (by decide)
    refine ⟨g', b, hc, ?_, ?_, ?_, ?_, ?_, ?_⟩
    · rw [hform]; exact haf
    · rw [hreq]; exact har
    · rw [hdep]; exact had
    · rw [hform]; exact hbf
    · rw [hreq]; exact hbr
    · rw [hdep]; exact hbd

/-- From any cyclic state, the propagation loop exhausts every fuel: the
recursion of lines 112-115 never reaches a base case, since each of the two
cells keeps the other in its dependent set. -/
theorem propAux_cyc (f : Nat) :
    ∀ g, CycState g → propAux f g ["A1"] = none ∧ propAux f g ["B1"] = none := by
  induction f with
  | zero => intro g _; exact ⟨rfl, rfl⟩
  | succ f ih =>
    intro g hg
    constructor
    · obtain ⟨g', b, hc, hg'⟩ := (cyc_calc g hg).1
      simp only [propAux]
      rw [hc]
      dsimp only
      rw [hg'.2.2.1]
      rw [(ih g' hg').2]
    · obtain ⟨g', b, hc, hg'⟩ := (cyc_calc g hg).2
      simp only [propAux]
      rw [hc]
      dsimp only
      rw [hg'.2.2.2.2.2]
      rw [(ih g' hg').1]

/-- An option known to be `some` equals `some` of its extracted content. -/
theorem eq_some_get (o : Option Sheet) (h : o.isSome = true) : o = some (o.get h) :=
  (Option.some_get h).symm

/-- Extracting the content of an option equal to `some p` yields `p`. -/
theorem get_eq_of_eq (o : Option (Sheet × Bool)) (h : o.isSome = true)
    (p : Sheet × Bool) (he : o = some p) : o.get h = p := by
  subst he
  rfl

/-! ## The claims -/

/-- C1: for every pair of cells X and Y, after any completed sequence of
formula edits (each edit followed by recalculation and propagation), Y is in
X's requirement set if and only if X is in Y's dependent set. -/
theorem c1_requires_requiredBy_inverse (fuel : Nat) (edits : List (String × String))
    (g' : Sheet) (h : runEdits fuel edits = some g') (X Y : String) :
    Y ∈ (g' X).reqs ↔ X ∈ (g' Y).deps :=
  runEdits_preserves calc_preserves_RelInv setFormula_preserves_RelInv RelInv_sheet0
    fuel edits g' h X Y

/-- Witness for C1: after editing `A1` to `"B1"` on the fresh grid, `B1` is
in `A1`'s requirement set and, by the theorem, `A1` is in `B1`'s dependent
set. -/
theorem c1_witness :
    "B1" ∈ (((runEdits 6 [("A1", "B1")]).get rfl) "A1").reqs ↔
      "A1" ∈ (((runEdits 6 [("A1", "B1")]).get rfl) "B1").deps :=
  c1_requires_requiredBy_inverse 6 [("A1", "B1")] ((runEdits 6 [("A1", "B1")]).get rfl)
    (eq_some_get (runEdits 6 [("A1", "B1")]) rfl) "A1" "B1"

/-- C10: the reference pattern `[A-Z][0-9]` can never match the
three-character name of a cell in row 10, so the extracted reference set of
any formula never contains such a name and the dependent set of such a cell
stays empty across any completed sequence of edits. -/
theorem c10_row_ten_never_referenced (fuel : Nat) (edits : List (String × String))
    (j : Nat) (_hj : j < 10) :
    (∀ f : String, ¬ cell_name 9 j ∈ refs f) ∧
    (∀ g', runEdits fuel edits = some g' → (g' (cell_name 9 j)).deps = []) := by
  constructor
  · exact fun f => cell_name_row10_not_ref j f
  · intro g' h
    have hP : RefShape g' :=
      runEdits_preserves calc_preserves_RefShape setFormula_preserves_RefShape
        RefShape_sheet0 fuel edits g' h
    refine hP.2 (cell_name 9 j) ?_
    rw [cell_name_row10_length]
    decide

/-- Witness for C10: cell `A10` is never matched in `"B1"` and its
dependent set is empty after the edit `A1 := "B1"`. -/
theorem c10_witness :
    ¬ cell_name 9 0 ∈ refs "B1" ∧
      (((runEdits 6 [("A1", "B1")]).get rfl) (cell_name 9 0)).deps = [] :=
  ⟨(c10_row_ten_never_referenced 6 [("A1", "B1")] 0 (by decide)).1 "B1",
   (c10_row_ten_never_referenced 6 [("A1", "B1")] 0 (by decide)).2
     ((runEdits 6 [("A1", "B1")]).get rfl) (eq_some_get (runEdits 6 [("A1", "B1")]) rfl)⟩

/-- C4: for a cell with a present, non-empty formula, a completed
`calculate` behaves as follows.  If evaluation succeeds the result is stored
into `value` and the error flag is cleared with no report.  If evaluation
fails the value is left unchanged, the error flag ends up set, and the error
dialog is shown exactly when the flag was not already set — so a failing
streak is reported once, and a repeated failure with the flag set reports
nothing. -/
theorem c4_error_reporting (g : Sheet) (n f0 : String)
    (hf : (g n).formula = some f0) (hne : ¬ f0 = "")
    (hs : (calculate g n).isSome = true) :
    (∀ v, pyEval (pyUpper f0) (envOf g (pySet (refs (pyUpper f0)))) = some v →
      ((((calculate g n).get hs).1 n).value = v ∧
       (((calculate g n).get hs).1 n).error_shown = false ∧
       ((calculate g n).get hs).2 = false)) ∧
    (pyEval (pyUpper f0) (envOf g (pySet (refs (pyUpper f0)))) = none →
      ((((calculate g n).get hs).1 n).value = (g n).value ∧
       (((calculate g n).get hs).1 n).error_shown = true ∧
       ((calculate g n).get hs).2 = !(g n).error_shown)) := by
  obtain ⟨p, hc⟩ := Option.isSome_iff_exists.mp hs
  obtain ⟨g', b⟩ := p
  have hspec := calculate_eval_spec g n f0 hf hne g' b hc
  rw [get_eq_of_eq (calculate g n) hs (g', b) hc]
  constructor
  · intro v hv
    rcases hspec with ⟨v', hv', h1, h2, h3⟩ | ⟨hnone, _, _, _⟩
    · obtain rfl : v' = v := by
        have h0 := hv'.symm.trans hv
        exact (Option.some.injEq _ _).mp h0
      exact ⟨h1, h2, h3⟩
    · exact absurd (hnone.symm.trans hv) (by simp)
  · intro hnone
    rcases hspec with ⟨v', hv', _, _, _⟩ | ⟨_, h1, h2, h3⟩
    · exact absurd (hv'.symm.trans hnone) (by simp)
    · exact ⟨h1, h2, h3⟩

/-- Witness for C4: editing `A1` to the broken formula `"=1/"` on the fresh
grid fails evaluation, keeps the prior value 0, sets the error flag, and
reports the error (the flag was clear). -/
theorem c4_witness :
    ((setFormula sheet0 "A1" "=1/") "A1").formula = some "=1/" ∧
    ((((calculate (setFormula sheet0 "A1" "=1/") "A1").get rfl).1 "A1").value = 0 ∧
     (((calculate (setFormula sheet0 "A1" "=1/") "A1").get rfl).1 "A1").error_shown = true ∧
     ((calculate (setFormula sheet0 "A1" "=1/") "A1").get rfl).2 = true) := by
  refine ⟨rfl, ?_⟩
  have h := (c4_error_reporting (setFormula sheet0 "A1" "=1/") "A1" "=1/" rfl
    (by decide) rfl).2 rfl
  exact ⟨h.1, h.2.1, h.2.2⟩

/-- C5, counterexample to the claim as stated: edit `A1` to the failing
formula `"=B1+"` (value stays 0, error flag set, requirement set `["B1"]`),
then edit `A1` to the empty formula.  The empty-formula recalculation sets
`value = 0` but leaves the error flag set and the requirement set at
`["B1"]` — it clears neither, contradicting the claimed clearing. -/
theorem c5_counterexample :
    (runEdits 6 [("A1", "=B1+"), ("A1", "")]).map
        (fun g => ((g "A1").formula, (g "A1").value, (g "A1").error_shown, (g "A1").reqs))
      = some (some "", 0, true, ["B1"]) ∧
    ¬ (runEdits 6 [("A1", "=B1+"), ("A1", "")]).map
        (fun g => ((g "A1").error_shown, (g "A1").reqs)) = some (false, []) := by
  exact ⟨by decide, by decide⟩

/-- C5 as amended: if a cell's formula is `None` or empty, `calculate` sets
its value to 0 and returns at once without evaluating; its error flag and
requirement set are left unchanged, no report is emitted, and every other
cell is untouched. -/
theorem c5_empty_formula_spec (g : Sheet) (n : String)
    (hf : (g n).formula = none ∨ (g n).formula = some "")
    (hs : (calculate g n).isSome = true) :
    (((calculate g n).get hs).1 n).value = 0 ∧
    (((calculate g n).get hs).1 n).error_shown = (g n).error_shown ∧
    (((calculate g n).get hs).1 n).reqs = (g n).reqs ∧
    ((calculate g n).get hs).2 = false ∧
    ∀ X, ¬ X = n → ((calculate g n).get hs).1 X = g X := by
  have hc : calculate g n = some (updateCell g n (fun c0 => { c0 with value := 0 }), false) := by
    rcases hf with hf | hf
    · simp [calculate, hf]
    · simp [calculate, hf]
  rw [get_eq_of_eq (calculate g n) hs _ hc]
  dsimp only
  refine ⟨?_, ?_, ?_, rfl, ?_⟩
  · rw [updateCell_same]
  · rw [updateCell_same]
  · rw [updateCell_same]
  · intro X hX
    rw [updateCell_other _ _ _ _ hX]

/-- Witness for the amended C5: recalculating the fresh `A1` (formula
`None`) keeps value 0, flag clear, requirements empty, and reports
nothing. -/
theorem c5_witness :
    (sheet0 "A1").formula = none ∧
    ((((calculate sheet0 "A1").get rfl).1 "A1").value = 0 ∧
     (((calculate sheet0 "A1").get rfl).1 "A1").error_shown = (sheet0 "A1").error_shown ∧
     (((calculate sheet0 "A1").get rfl).1 "A1").reqs = (sheet0 "A1").reqs ∧
     ((calculate sheet0 "A1").get rfl).2 = false ∧
     ∀ X, ¬ X = "A1" → ((calculate sheet0 "A1").get rfl).1 X = sheet0 X) := by
  refine ⟨rfl, ?_⟩
  exact c5_empty_formula_spec sheet0 "A1" (Or.inl rfl) rfl

/-- C9, counterexample to the claim as stated: the stored texts `"=5"` and
`"=A1+1"` keep their leading `=`, which `eval` rejects as a syntax error, so
both cells keep their default value 0 — `B1.value` is 0, not 6, and after
the further edit `A1 := "=10"` it is still 0, not 11. -/
theorem c9_counterexample :
    (runEdits 6 [("A1", "=5"), ("B1", "=A1+1")]).map (fun g => (g "B1").value)
        = some 0 ∧
    ¬ (runEdits 6 [("A1", "=5"), ("B1", "=A1+1")]).map (fun g => (g "B1").value)
        = some 6 ∧
    (runEdits 6 [("A1", "=5"), ("B1", "=A1+1"), ("A1", "=10")]).map
        (fun g => (g "B1").value) = some 0 ∧
    ¬ (runEdits 6 [("A1", "=5"), ("B1", "=A1+1"), ("A1", "=10")]).map
        (fun g => (g "B1").value) = some 11 := by
  exact ⟨by decide, by decide, by decide, by decide⟩

/-- C9 as amended: with the formulas written as the plain expressions the
engine accepts (`"5"`, `"A1+1"`, `"10"` — no leading `=`), editing `A1`
then `B1` yields `B1.value = 6`, and the further edit of `A1` propagates to
`B1.value = 11`. -/
theorem c9_amended_arithmetic :
    (runEdits 6 [("A1", "5"), ("B1", "A1+1")]).map (fun g => (g "B1").value)
        = some 6 ∧
    (runEdits 6 [("A1", "5"), ("B1", "A1+1"), ("A1", "10")]).map
        (fun g => (g "B1").value) = some 11 := by
  exact ⟨by decide, by decide⟩

/-- C6: the formula `"=Z9"` matches the reference pattern with the name
`Z9`, which is not a key of the 10 × 10 grid dictionary, so the dependent
update `self.siblings["Z9"].deps.add(...)` of line 80 raises an uncaught
`KeyError` — modeled by `calculate` returning `none` — instead of being
handled like an evaluation error. -/
theorem c6_out_of_grid_reference_aborts :
    "Z9" ∈ refs "=Z9" ∧ ¬ "Z9" ∈ gridNames ∧
      calculate (setFormula sheet0 "A1" "=Z9") "A1" = none := by
  refine ⟨by decide, by decide, rfl⟩

/-- C3: in the diamond where `B1` and `C1` both hold `"A1"` and `D1` holds
`"B1+C1"`, an edit of `A1` recalculates `D1` once per path — the
propagation pass calls `calculate` on `B1`, `D1`, `C1`, `D1` in that order,
so `D1` is recalculated twice, not once. -/
theorem c3_diamond_double_recalculation :
    ((runEdits 9 [("B1", "A1"), ("C1", "A1"), ("D1", "B1+C1")]).bind
      (fun g => (calculate (setFormula g "A1" "1") "A1").bind
        (fun p => (propagate 9 p.1 "A1").map (fun q => (q.2, q.2.count "D1")))))
      = some (["B1", "D1", "C1", "D1"], 2) := by
  decide

/-- The sheet after editing `A1` to `"=B1"` on the fresh grid (the
propagation step of that edit is a no-op since `A1` has no dependents
yet). -/
def gAcyc : Sheet := ((calculate (setFormula sheet0 "A1" "=B1") "A1").get rfl).1

/-- The sheet after the further edit `B1 := "=A1"`, just before the
propagation from `B1` starts: both cycle edges are in place. -/
def gBcyc : Sheet := ((calculate (setFormula gAcyc "B1" "=A1") "B1").get rfl).1

theorem gBcyc_CycState : CycState gBcyc := by
  refine ⟨rfl, rfl, rfl, rfl, rfl, rfl⟩

/-- C2: editing `A1` to `"=B1"` and then `B1` to `"=A1"` makes the
propagation of the second edit recurse forever — no recursion-depth fuel is
ever enough, which in Python is the unbounded mutual recursion of
`propagate` (a `RecursionError`), not a terminating pass with stable
values. -/
theorem c2_cycle_propagation_diverges :
    ∀ fuel : Nat, runEdits fuel [("A1", "=B1"), ("B1", "=A1")] = none := by
  intro fuel
  cases fuel with
  | zero => rfl
  | succ f =>
    have h1 : applyEdit (f + 1) sheet0 "A1" "=B1" = some gAcyc := rfl
    have hc : calculate (setFormula gAcyc "B1" "=A1") "B1" = some (gBcyc, true) := rfl
    have hrest : propagate (f + 1) gBcyc "B1" = none := by
      unfold propagate
      have hd : (gBcyc "B1").deps = ["A1"] := rfl
      rw [hd]
      exact (propAux_cyc (f + 1) gBcyc gBcyc_CycState).1
    have h3 : applyEdit (f + 1) gAcyc "B1" "=A1" = none := by
      unfold applyEdit
      rw [if_pos (by decide)]
      rw [hc]
      dsimp only
      rw [hrest]
    show runEditsFrom (f + 1) sheet0 [("A1", "=B1"), ("B1", "=A1")] = none
    simp only [runEditsFrom]
    rw [h1]
    dsimp only
    rw [h3]
